import Mathlib

/-!
Verification of the deferred-computation / witness-generation subsystem of the
succinctx repository: the Curta EC-op request/accelerator/drain pattern
(`plonky2x/core/src/frontend/ecc/ed25519/curta/builder.rs`,
`.../ed25519/curta/request.rs`, `.../curve25519/curta/request.rs`) and the
Ethereum storage generators
(`plonky2x/src/frontend/eth/storage/generators/storage.rs`).

Circuit variables are modelled as opaque wire handles; the builder during the
drain is modelled as explicit state (recorded hint invocations, emitted
equality constraints, a fresh-handle counter for hint outputs).  Rust panics
(`expect`, out-of-bounds indexing) are modelled by `Option`.
-/

set_option maxHeartbeats 1000000

/-- `EcOpRequestType` from `request.rs`: the tag enum
{Add, ScalarMul, Decompress, IsValid}. -/
inductive EcOpRequestType
  | Add
  | ScalarMul
  | Decompress
  | IsValid
deriving DecidableEq, Repr

/-- Opaque handle for an `AffinePointVariable<E>` (a point-typed circuit
variable). -/
structure AffinePointVariable where
  id : Nat
deriving DecidableEq, Repr

/-- Opaque handle for a `NonNativeTarget<FF>` / `NonNativeVariable<FF>`
(a scalar-typed circuit variable). -/
structure NonNativeTarget where
  id : Nat
deriving DecidableEq, Repr

/-- Opaque handle for a `CompressedEdwardsYVariable` (a compressed-point-typed
circuit variable). -/
structure CompressedEdwardsYVariable where
  id : Nat
deriving DecidableEq, Repr

/-- `EcOpRequest` from `request.rs`.  The ed25519 and curve25519 copies differ
only by `Box` wrappers and the scalar type alias, which are transparent to this
model, so one definition covers both files. -/
inductive EcOpRequest
  | Add (a b : AffinePointVariable)
  | ScalarMul (scalar : NonNativeTarget) (point : AffinePointVariable)
  | Decompress (compressedPoint : CompressedEdwardsYVariable)
  | IsValid (point : AffinePointVariable)
deriving DecidableEq, Repr

/-- `EcOpRequest::req_type` from `request.rs` (both copies): the tag of the
variant. -/
def EcOpRequest.req_type : EcOpRequest → EcOpRequestType
  | .Add _ _ => .Add
  | .ScalarMul _ _ => .ScalarMul
  | .Decompress _ => .Decompress
  | .IsValid _ => .IsValid

/-- One typed record written to a `VariableStream`; the constructor records the
semantic type of the variable being written. -/
inductive StreamItem
  | point (p : AffinePointVariable)
  | scalar (s : NonNativeTarget)
  | compressed (c : CompressedEdwardsYVariable)
deriving DecidableEq, Repr

/-- `VariableStream`: an ordered typed buffer of written variables. -/
structure VariableStream where
  items : List StreamItem
deriving DecidableEq, Repr

/-- `VariableStream::new()`. -/
def VariableStream.new : VariableStream := ⟨[]⟩

/-- `VariableStream::write`: appends one typed record. -/
def VariableStream.write (s : VariableStream) (i : StreamItem) : VariableStream :=
  ⟨s.items ++ [i]⟩

/-- `EcOpResultHint::<E, FF>::new(req_type)`: the hint is selected by the
request type alone. -/
structure EcOpResultHint where
  req_type : EcOpRequestType
deriving DecidableEq, Repr

/-- `EcOpResultHint::new`. -/
def EcOpResultHint.new (t : EcOpRequestType) : EcOpResultHint := ⟨t⟩

/-- A recorded invocation of `self.hint(input_stream, result_hint)`: which
hint was invoked and the full input stream it was given. -/
structure HintCall where
  hint : EcOpResultHint
  input : List StreamItem
deriving DecidableEq, Repr

/-- The circuit-builder state touched by `curta_constrain_ec_op`: recorded hint
invocations, emitted equality constraints between point variables, and a
fresh-handle counter for the point variables read back from hint output
streams. -/
structure CircuitBuilder where
  hints : List HintCall
  constraints : List (AffinePointVariable × AffinePointVariable)
  fresh : Nat
deriving DecidableEq, Repr

/-- `self.hint(input_stream, result_hint)`: records the invocation. -/
def CircuitBuilder.hint (b : CircuitBuilder) (input_stream : VariableStream)
    (result_hint : EcOpResultHint) : CircuitBuilder :=
  { b with hints := b.hints ++ [⟨result_hint, input_stream.items⟩] }

/-- `output_stream.read::<AffinePointVariable<E>>(self)`: reading one
point-typed result from a hint output stream allocates a fresh point variable
owned by that hint call. -/
def CircuitBuilder.readPoint (b : CircuitBuilder) :
    AffinePointVariable × CircuitBuilder :=
  (⟨b.fresh⟩, { b with fresh := b.fresh + 1 })

/-- `self.assert_is_equal(result, response)`: emits one equality constraint. -/
def CircuitBuilder.assert_is_equal (b : CircuitBuilder)
    (x y : AffinePointVariable) : CircuitBuilder :=
  { b with constraints := b.constraints ++ [(x, y)] }

/-- `EcOpAccelerator`: order-aligned requests and optional placeholder
responses. -/
structure EcOpAccelerator where
  ec_op_requests : List EcOpRequest
  ec_op_responses : List (Option AffinePointVariable)
deriving DecidableEq, Repr

/-- One iteration of the loop body of `curta_constrain_ec_op`
(`builder.rs` lines 22-52): build the input stream by the type-specific
`match`, invoke the hint chosen by `req_type`, and for Add / ScalarMul /
Decompress read one point result back and constrain it equal to the response;
the `expect("response should not be None")` panic is modelled by `none`. -/
def ecOpStep (b : CircuitBuilder) (request : EcOpRequest)
    (response : Option AffinePointVariable) : Option CircuitBuilder :=
  let result_hint := EcOpResultHint.new request.req_type
  let input_stream := VariableStream.new
  let input_stream :=
    match request with
    | .Add a b2 => (input_stream.write (.point a)).write (.point b2)
    | .ScalarMul scalar point =>
        (input_stream.write (.scalar scalar)).write (.point point)
    | .Decompress compressedPoint => input_stream.write (.compressed compressedPoint)
    | .IsValid point => input_stream.write (.point point)
  let b := b.hint input_stream result_hint
  match request with
  | .Add _ _ | .ScalarMul _ _ | .Decompress _ =>
    let (result, b2) := b.readPoint
    match response with
    | some r => some (b2.assert_is_equal result r)
    | none => none
  | .IsValid _ => some b

/-- Sequential processing of the zipped (request, response) pairs; a panic in
any iteration aborts circuit construction. -/
def processEcOpPairs (b : CircuitBuilder) :
    List (EcOpRequest × Option AffinePointVariable) → Option CircuitBuilder
  | [] => some b
  | (request, response) :: rest =>
    match ecOpStep b request response with
    | some b2 => processEcOpPairs b2 rest
    | none => none

/-- `CircuitBuilder::curta_constrain_ec_op` (`builder.rs` lines 12-54): iterate
over `ec_op_requests.iter().zip(ec_op_responses.iter())` in insertion order. -/
def curta_constrain_ec_op (b : CircuitBuilder) (accelerator : EcOpAccelerator) :
    Option CircuitBuilder :=
  processEcOpPairs b (accelerator.ec_op_requests.zip accelerator.ec_op_responses)

/-- The input-stream contents the loop writes for each request variant
(`builder.rs` lines 25-40). -/
def ecOpOperandItems : EcOpRequest → List StreamItem
  | .Add a b => [.point a, .point b]
  | .ScalarMul scalar point => [.scalar scalar, .point point]
  | .Decompress compressedPoint => [.compressed compressedPoint]
  | .IsValid point => [.point point]

/-- The equality constraints a successful drain appends, given the next fresh
result handle: one constraint per non-IsValid pair, in insertion order, binding
the freshly read result to the aligned placeholder response. -/
def expectedEcConstraints (fresh : Nat) :
    List (EcOpRequest × Option AffinePointVariable) →
    List (AffinePointVariable × AffinePointVariable)
  | [] => []
  | (request, response) :: rest =>
    match request.req_type with
    | .IsValid => expectedEcConstraints fresh rest
    | _ => (⟨fresh⟩, response.getD ⟨0⟩) :: expectedEcConstraints (fresh + 1) rest

/-! ## Ethereum storage generators (`storage.rs`) -/

/-- A plonky2 `Target`: an opaque wire index. -/
abbrev Target := Nat

/-- `u64::to_be_bytes`: the 8-byte big-endian encoding of a 64-bit value. -/
def beBytes8 (x : Nat) : List Nat :=
  [x / 2 ^ 56 % 256, x / 2 ^ 48 % 256, x / 2 ^ 40 % 256, x / 2 ^ 32 % 256,
   x / 2 ^ 24 % 256, x / 2 ^ 16 % 256, x / 2 ^ 8 % 256, x % 256]

/-- `u64::from_be_bytes`: big-endian recomposition. -/
def fromBeBytes8 (l : List Nat) : Nat :=
  l.foldl (fun acc b => acc * 256 + b) 0

/-- `Buffer::read_exact`: consume exactly `n` bytes from the front, failing if
fewer remain. -/
def read_exact (n : Nat) (src : List Nat) : Option (List Nat × List Nat) :=
  if n ≤ src.length then some (src.take n, src.drop n) else none

/-- The external plonky2 `write_target_vec` byte layout, per spec section 6:
a length-prefixed handle-list encoding (8-byte length, then each target as a
fixed-width 8-byte word). -/
def write_target_vec (targets : List Target) : List Nat :=
  beBytes8 targets.length ++ targets.flatMap beBytes8

/-- Reads `n` consecutive 8-byte target words. -/
def readTargets : Nat → List Nat → Option (List Target × List Nat)
  | 0, src => some ([], src)
  | n + 1, src =>
    match read_exact 8 src with
    | none => none
    | some (tb, rest) =>
      match readTargets n rest with
      | none => none
      | some (ts, rest2) => some (fromBeBytes8 tb :: ts, rest2)

/-- The external plonky2 `read_target_vec`: inverse of `write_target_vec`. -/
def read_target_vec (src : List Nat) : Option (List Target × List Nat) :=
  match read_exact 8 src with
  | none => none
  | some (lb, rest) => readTargets (fromBeBytes8 lb) rest

/-- `U256Variable`: a composite circuit variable, identified by its underlying
wire handles (the limb structure is external machinery). -/
structure U256Variable where
  targets : List Target
deriving DecidableEq, Repr

/-- `U256Variable::from_targets`. -/
def U256Variable.from_targets (ts : List Target) : U256Variable := ⟨ts⟩

/-- `Bytes32Variable`: a composite circuit variable over its wire handles. -/
structure Bytes32Variable where
  targets : List Target
deriving DecidableEq, Repr

/-- `Bytes32Variable::from_targets`. -/
def Bytes32Variable.from_targets (ts : List Target) : Bytes32Variable := ⟨ts⟩

/-- `EthLogVariable`: a composite circuit variable over its wire handles. -/
structure EthLogVariable where
  targets : List Target
deriving DecidableEq, Repr

/-- `EthLogVariable::from_targets`. -/
def EthLogVariable.from_targets (ts : List Target) : EthLogVariable := ⟨ts⟩

/-- `self.mapping_location.get(witness)`: the 256-bit integer value of the
variable under a witness.  The limb-decode machinery is external to the source
under scrutiny; it is modelled as the base-2^32 composition of the values the
witness assigns to the variable's wires, a function of exactly those values. -/
def U256Variable.get (v : U256Variable) (witness : Target → Nat) : Nat :=
  (v.targets.map witness).foldr (fun limb acc => acc * 2 ^ 32 + limb) 0

/-- `self.map_key.get(witness)`: the value of a `Bytes32Variable` under a
witness, modelled as the list of values assigned to its wires. -/
def Bytes32Variable.get (v : Bytes32Variable) (witness : Target → Nat) : List Nat :=
  v.targets.map witness

/-- The ethers `U256::as_u128` conversion: panics (modelled by `none`) when the
value does not fit in 128 bits. -/
def as_u128 (x : Nat) : Option Nat :=
  if x < 2 ^ 128 then some x else none

/-- Modelled from the spec: `get_map_storage_location`
(`frontend/eth/storage/utils.rs`) is repository code not present under the
provided sources; spec section 4.3 describes the storage-key generator as a
"pure function of (mapping base slot, lookup key) → derived storage slot".
It is modelled as a definite pure function of the pair; the claims depend only
on it being a deterministic function with no other inputs. -/
def get_map_storage_location (mapping_location : Nat) (map_key : List Nat) :
    List Nat :=
  mapping_location % 256 :: map_key

/-- `EthStorageKeyGenerator` (phantom type parameters dropped). -/
structure EthStorageKeyGenerator where
  mapping_location : U256Variable
  map_key : Bytes32Variable
  value : Bytes32Variable
deriving DecidableEq, Repr

/-- `EthStorageKeyGenerator::dependencies` (`storage.rs` lines 100-105). -/
def EthStorageKeyGenerator.dependencies (g : EthStorageKeyGenerator) : List Target :=
  g.mapping_location.targets ++ g.map_key.targets

/-- `EthStorageKeyGenerator::run_once` (`storage.rs` lines 107-117): read the
two dependency values, derive the storage slot, write it to the output
variable.  The returned list is the (wire, value) pairs written to the
`GeneratedValues` buffer; `none` models the `as_u128` panic. -/
def EthStorageKeyGenerator.run_once (g : EthStorageKeyGenerator)
    (witness : Target → Nat) : Option (List (Target × Nat)) :=
  let mapping_location := g.mapping_location.get witness
  let map_key := g.map_key.get witness
  match as_u128 mapping_location with
  | none => none
  | some ml =>
    let location := get_map_storage_location ml map_key
    some (g.value.targets.zip location)

/-- `EthStorageKeyGenerator::serialize` (`storage.rs` lines 120-128). -/
def EthStorageKeyGenerator.serialize (g : EthStorageKeyGenerator) : List Nat :=
  write_target_vec g.mapping_location.targets ++
  write_target_vec g.map_key.targets ++
  write_target_vec g.value.targets

/-- `EthStorageKeyGenerator::deserialize` (`storage.rs` lines 131-150);
`IoResult` is modelled by `Option`, and the unconsumed buffer suffix is
returned alongside the generator. -/
def EthStorageKeyGenerator.deserialize (src : List Nat) :
    Option (EthStorageKeyGenerator × List Nat) :=
  match read_target_vec src with
  | none => none
  | some (mapping_location_targets, rest) =>
    let mapping_location := U256Variable.from_targets mapping_location_targets
    match read_target_vec rest with
    | none => none
    | some (map_key_targets, rest2) =>
      let map_key := Bytes32Variable.from_targets map_key_targets
      match read_target_vec rest2 with
      | none => none
      | some (value_targets, rest3) =>
        let value := Bytes32Variable.from_targets value_targets
        some ({ mapping_location, map_key, value }, rest3)

/-- One RPC log entry of a transaction receipt. -/
structure Log where
  address : Nat
  topics : List Nat
  data : List Nat
deriving DecidableEq, Repr

/-- An RPC `TransactionReceipt`, reduced to the part the generator reads. -/
structure TransactionReceipt where
  logs : List Log
deriving DecidableEq, Repr

/-- The `EthLog` value written to the output variable. -/
structure EthLog where
  address : Nat
  topics : Nat × Nat × Nat
  data_hash : Nat
deriving DecidableEq, Repr

/-- Stand-in for the external sha2 crate SHA-256 digest, a black box per the
spec scope; the claims constrain only that the output field equals this
function applied to the selected log's data. -/
def sha2_digest (data : List Nat) : Nat :=
  data.foldl (fun acc b => acc * 257 + b + 1) 1

/-- `self.value.set(buffer, value)` for an `EthLogVariable`: the (wire, value)
pairs written, pairing the variable's wires with the flattened field values of
the `EthLog`. -/
def EthLogVariable.set (v : EthLogVariable) (value : EthLog) :
    List (Target × Nat) :=
  v.targets.zip
    [value.address, value.topics.1, value.topics.2.1, value.topics.2.2,
     value.data_hash]

/-- `EthLogGenerator` (phantom type parameters dropped). -/
structure EthLogGenerator where
  transaction_hash : Bytes32Variable
  block_hash : Bytes32Variable
  log_index : Nat
  value : EthLogVariable
  chain_id : Nat
deriving DecidableEq, Repr

/-- `EthLogGenerator::dependencies` (`storage.rs` lines 192-197): the
transaction-hash wires followed by the block-hash wires. -/
def EthLogGenerator.dependencies (g : EthLogGenerator) : List Target :=
  g.transaction_hash.targets ++ g.block_hash.targets

/-- `EthLogGenerator::run_once` (`storage.rs` lines 199-226).  The RPC provider
is passed as a function from (chain id, transaction-hash value) to an optional
receipt; both fatal `expect`s around `get_transaction_receipt` are collapsed
into `none`.  The Rust panics from `logs[log_index]` and `topics[0..3]`
indexing out of bounds are modelled by `none`; on success the returned list is
the (wire, value) pairs written to the output variable. -/
def EthLogGenerator.run_once (g : EthLogGenerator) (witness : Target → Nat)
    (provider : Nat → List Nat → Option TransactionReceipt) :
    Option (List (Target × Nat)) :=
  let transaction_hash := g.transaction_hash.get witness
  let _block_hash := g.block_hash.get witness
  match provider g.chain_id transaction_hash with
  | none => none
  | some result =>
    match result.logs[g.log_index]? with
    | none => none
    | some log =>
      match log.topics with
      | t0 :: t1 :: t2 :: _ =>
        let value : EthLog :=
          { address := log.address, topics := (t0, t1, t2),
            data_hash := sha2_digest log.data }
        some (g.value.set value)
      | _ => none

/-- `EthLogGenerator::serialize` (`storage.rs` lines 229-244): 8-byte
big-endian chain id, transaction-hash targets, block-hash targets, 8-byte
big-endian log index, value targets. -/
def EthLogGenerator.serialize (g : EthLogGenerator) : List Nat :=
  beBytes8 g.chain_id ++
  write_target_vec g.transaction_hash.targets ++
  write_target_vec g.block_hash.targets ++
  beBytes8 g.log_index ++
  write_target_vec g.value.targets

/-- `EthLogGenerator::deserialize` (`storage.rs` lines 247-276). -/
def EthLogGenerator.deserialize (src : List Nat) :
    Option (EthLogGenerator × List Nat) :=
  match read_exact 8 src with
  | none => none
  | some (chain_id_bytes, r1) =>
    let chain_id := fromBeBytes8 chain_id_bytes
    match read_target_vec r1 with
    | none => none
    | some (transaction_hash_targets, r2) =>
      let transaction_hash := Bytes32Variable.from_targets transaction_hash_targets
      match read_target_vec r2 with
      | none => none
      | some (block_hash_targets, r3) =>
        let block_hash := Bytes32Variable.from_targets block_hash_targets
        match read_exact 8 r3 with
        | none => none
        | some (log_index_bytes, r4) =>
          let log_index := fromBeBytes8 log_index_bytes
          match read_target_vec r4 with
          | none => none
          | some (value_targets, r5) =>
            let value := EthLogVariable.from_targets value_targets
            some ({ block_hash, transaction_hash, log_index, value, chain_id }, r5)

/-- The bounds under which the byte-level model is faithful: in the source the
target-vector length and each target index are machine words, so they fit in
64 bits by type. -/
def validTargetList (ts : List Target) : Prop :=
  ts.length < 2 ^ 64 ∧ ∀ t ∈ ts, t < 2 ^ 64

instance (ts : List Target) : Decidable (validTargetList ts) := by
  unfold validTargetList
  infer_instance

/-- The request types that read back a point result during the drain:
{Add, ScalarMul, Decompress}. -/
def isResultRequest (t : EcOpRequestType) : Bool :=
  t == EcOpRequestType.Add || t == EcOpRequestType.ScalarMul ||
    t == EcOpRequestType.Decompress

/-! ## Helper lemmas about the drain loop -/

theorem isResultRequest_iff (t : EcOpRequestType) :
    isResultRequest t = true ↔ t ≠ EcOpRequestType.IsValid := by
  cases t <;> simp [isResultRequest]

theorem expectedEcConstraints_length (l : List (EcOpRequest × Option AffinePointVariable)) :
    ∀ fresh, (expectedEcConstraints fresh l).length =
      l.countP (fun p => isResultRequest p.1.req_type) := by
  induction l with
  | nil => intro fresh; simp [expectedEcConstraints]
  | cons hd tl ih =>
    intro fresh
    obtain ⟨request, response⟩ := hd
    cases request <;>
      simp [expectedEcConstraints, EcOpRequest.req_type, List.countP_cons,
        isResultRequest, ih]

theorem processEcOpPairs_success (l : List (EcOpRequest × Option AffinePointVariable)) :
    ∀ b : CircuitBuilder,
    (∀ p ∈ l, p.1.req_type ≠ EcOpRequestType.IsValid → (p.2).isSome) →
    ∃ b2, processEcOpPairs b l = some b2 ∧
      b2.hints = b.hints ++
        l.map (fun p => ⟨EcOpResultHint.new p.1.req_type, ecOpOperandItems p.1⟩) ∧
      b2.constraints = b.constraints ++ expectedEcConstraints b.fresh l ∧
      b2.fresh = b.fresh + l.countP (fun p => isResultRequest p.1.req_type) := by
  induction l with
  | nil =>
    intro b _
    exact ⟨b, rfl, by simp, by simp [expectedEcConstraints], by simp⟩
  | cons hd tl ih =>
    intro b h
    obtain ⟨request, response⟩ := hd
    have htl : ∀ p ∈ tl, p.1.req_type ≠ EcOpRequestType.IsValid → (p.2).isSome :=
      fun p hp => h p (List.mem_cons_of_mem _ hp)
    cases request with
    | Add a c =>
      have hs : response.isSome :=
        h _ (List.mem_cons_self _ _) (by simp [EcOpRequest.req_type])
      obtain ⟨r, rfl⟩ := Option.isSome_iff_exists.mp hs
      obtain ⟨b2, hrun, hhints, hcons, hfresh⟩ :=
        ih { hints := b.hints ++ [⟨⟨EcOpRequestType.Add⟩, [.point a, .point c]⟩],
             constraints := b.constraints ++ [(⟨b.fresh⟩, r)],
             fresh := b.fresh + 1 } htl
      refine ⟨b2, hrun, ?_, ?_, ?_⟩
      · simp only [hhints]
        simp [ecOpOperandItems, EcOpRequest.req_type, EcOpResultHint.new]
      · simp only [hcons]
        simp [expectedEcConstraints, EcOpRequest.req_type]
      · simp only [hfresh]
        simp only [List.countP_cons]
        simp [EcOpRequest.req_type, isResultRequest]
        omega
    | ScalarMul s pt =>
      have hs : response.isSome :=
        h _ (List.mem_cons_self _ _) (by simp [EcOpRequest.req_type])
      obtain ⟨r, rfl⟩ := Option.isSome_iff_exists.mp hs
      obtain ⟨b2, hrun, hhints, hcons, hfresh⟩ :=
        ih { hints := b.hints ++ [⟨⟨EcOpRequestType.ScalarMul⟩, [.scalar s, .point pt]⟩],
             constraints := b.constraints ++ [(⟨b.fresh⟩, r)],
             fresh := b.fresh + 1 } htl
      refine ⟨b2, hrun, ?_, ?_, ?_⟩
      · simp only [hhints]
        simp [ecOpOperandItems, EcOpRequest.req_type, EcOpResultHint.new]
      · simp only [hcons]
        simp [expectedEcConstraints, EcOpRequest.req_type]
      · simp only [hfresh]
        simp only [List.countP_cons]
        simp [EcOpRequest.req_type, isResultRequest]
        omega
    | Decompress c =>
      have hs : response.isSome :=
        h _ (List.mem_cons_self _ _) (by simp [EcOpRequest.req_type])
      obtain ⟨r, rfl⟩ := Option.isSome_iff_exists.mp hs
      obtain ⟨b2, hrun, hhints, hcons, hfresh⟩ :=
        ih { hints := b.hints ++ [⟨⟨EcOpRequestType.Decompress⟩, [.compressed c]⟩],
             constraints := b.constraints ++ [(⟨b.fresh⟩, r)],
             fresh := b.fresh + 1 } htl
      refine ⟨b2, hrun, ?_, ?_, ?_⟩
      · simp only [hhints]
        simp [ecOpOperandItems, EcOpRequest.req_type, EcOpResultHint.new]
      · simp only [hcons]
        simp [expectedEcConstraints, EcOpRequest.req_type]
      · simp only [hfresh]
        simp only [List.countP_cons]
        simp [EcOpRequest.req_type, isResultRequest]
        omega
    | IsValid pt =>
      obtain ⟨b2, hrun, hhints, hcons, hfresh⟩ :=
        ih { b with hints := b.hints ++ [⟨⟨EcOpRequestType.IsValid⟩, [.point pt]⟩] } htl
      refine ⟨b2, ?_, ?_, ?_, ?_⟩
      · cases response <;> exact hrun
      · cases response <;>
          · simp only [hhints]
            simp [ecOpOperandItems, EcOpRequest.req_type, EcOpResultHint.new]
      · cases response <;>
          · simp only [hcons]
            simp [expectedEcConstraints, EcOpRequest.req_type]
      · cases response <;>
          · simp only [hfresh]
            simp only [List.countP_cons]
            simp [EcOpRequest.req_type, isResultRequest]

theorem processEcOpPairs_missing (l : List (EcOpRequest × Option AffinePointVariable)) :
    ∀ (b : CircuitBuilder) (p : EcOpRequest × Option AffinePointVariable),
    p ∈ l → isResultRequest p.1.req_type → p.2 = none →
    processEcOpPairs b l = none := by
  induction l with
  | nil =>
    intro b p hp _ _
    simp at hp
  | cons hd tl ih =>
    intro b p hp hreq hnone
    obtain ⟨request, response⟩ := hd
    rcases List.mem_cons.mp hp with heq | hmem
    · subst heq
      have hr : response = none := hnone
      subst hr
      cases request with
      | Add a c => rfl
      | ScalarMul s pt => rfl
      | Decompress c => rfl
      | IsValid pt => simp [isResultRequest, EcOpRequest.req_type] at hreq
    · show processEcOpPairs b ((request, response) :: tl) = none
      simp only [processEcOpPairs]
      cases hstep : ecOpStep b request response with
      | none => rfl
      | some b1 => exact ih b1 p hmem hreq hnone

theorem processEcOpPairs_some_presence (l : List (EcOpRequest × Option AffinePointVariable))
    (b b2 : CircuitBuilder) (h : processEcOpPairs b l = some b2) :
    ∀ p ∈ l, p.1.req_type ≠ EcOpRequestType.IsValid → (p.2).isSome := by
  intro p hp hne
  by_contra hno
  have hnone : p.2 = none := Option.not_isSome_iff_eq_none.mp hno
  have : processEcOpPairs b l = none :=
    processEcOpPairs_missing l b p hp ((isResultRequest_iff _).mpr hne) hnone
  rw [h] at this
  exact Option.noConfusion this

theorem processEcOpPairs_some_hints (l : List (EcOpRequest × Option AffinePointVariable))
    (b b2 : CircuitBuilder) (h : processEcOpPairs b l = some b2) :
    b2.hints = b.hints ++
      l.map (fun p => ⟨EcOpResultHint.new p.1.req_type, ecOpOperandItems p.1⟩) := by
  obtain ⟨b3, hrun, hhints, -, -⟩ :=
    processEcOpPairs_success l b (processEcOpPairs_some_presence l b b2 h)
  rw [h] at hrun
  rw [Option.some.inj hrun]
  exact hhints

theorem zip_eq_zip_take {α β : Type} (l₁ : List α) :
    ∀ l₂ : List β, l₁.zip l₂ = (l₁.take l₂.length).zip l₂ := by
  induction l₁ with
  | nil => intro l₂; simp
  | cons a t ih =>
    intro l₂
    cases l₂ with
    | nil => simp
    | cons b s => simp [ih s]

/-! ## Claim theorems for the drain loop -/

/-- **C1**: for every accelerator with aligned request/response sequences whose
responses are present wherever the request type is not IsValid (the Accelerator
invariant of spec section 3), the drain succeeds, processing the zipped pairs
in insertion order; it reads exactly one fresh point result per
Add/ScalarMul/Decompress request (the fresh-counter conjunct), binds each such
result to the aligned placeholder by one equality constraint appended in
insertion order (the `expectedEcConstraints` conjunct), emits none for IsValid,
and the total number of emitted equality constraints equals the number of
requests with type in {Add, ScalarMul, Decompress}. -/
theorem curta_constrain_ec_op_binds_each_result_request
    (b : CircuitBuilder) (accelerator : EcOpAccelerator)
    (hlen : accelerator.ec_op_requests.length = accelerator.ec_op_responses.length)
    (hresp : ∀ p ∈ accelerator.ec_op_requests.zip accelerator.ec_op_responses,
      p.1.req_type ≠ EcOpRequestType.IsValid → (p.2).isSome) :
    ∃ b2, curta_constrain_ec_op b accelerator = some b2 ∧
      b2.constraints = b.constraints ++
        expectedEcConstraints b.fresh
          (accelerator.ec_op_requests.zip accelerator.ec_op_responses) ∧
      b2.fresh = b.fresh +
        accelerator.ec_op_requests.countP (fun r => isResultRequest r.req_type) ∧
      b2.constraints.length = b.constraints.length +
        accelerator.ec_op_requests.countP (fun r => isResultRequest r.req_type) := by
  obtain ⟨b2, hrun, hhints, hcons, hfresh⟩ := processEcOpPairs_success _ b hresp
  have hmap : (accelerator.ec_op_requests.zip accelerator.ec_op_responses).map Prod.fst
      = accelerator.ec_op_requests :=
    List.map_fst_zip _ _ (le_of_eq hlen)
  have hcount : (accelerator.ec_op_requests.zip accelerator.ec_op_responses).countP
      (fun p => isResultRequest p.1.req_type) =
      accelerator.ec_op_requests.countP (fun r => isResultRequest r.req_type) := by
    conv_rhs => rw [← hmap]
    rw [List.countP_map]
    rfl
  refine ⟨b2, hrun, hcons, ?_, ?_⟩
  · rw [hfresh, hcount]
  · rw [hcons]
    simp [expectedEcConstraints_length, hcount]

/-- Witness for C1 at a concrete accelerator holding one request of each type. -/
theorem curta_constrain_ec_op_binds_each_result_request_witness :
    (([EcOpRequest.Add ⟨0⟩ ⟨1⟩, EcOpRequest.ScalarMul ⟨2⟩ ⟨3⟩,
       EcOpRequest.Decompress ⟨4⟩, EcOpRequest.IsValid ⟨5⟩] : List EcOpRequest).length =
      ([some ⟨10⟩, some ⟨11⟩, some ⟨12⟩, none] : List (Option AffinePointVariable)).length) ∧
    (∀ p ∈ ([EcOpRequest.Add ⟨0⟩ ⟨1⟩, EcOpRequest.ScalarMul ⟨2⟩ ⟨3⟩,
       EcOpRequest.Decompress ⟨4⟩, EcOpRequest.IsValid ⟨5⟩] : List EcOpRequest).zip
        ([some ⟨10⟩, some ⟨11⟩, some ⟨12⟩, none] : List (Option AffinePointVariable)),
      p.1.req_type ≠ EcOpRequestType.IsValid → (p.2).isSome) ∧
    ∃ b2,
      curta_constrain_ec_op ⟨[], [], 7⟩
        ⟨[EcOpRequest.Add ⟨0⟩ ⟨1⟩, EcOpRequest.ScalarMul ⟨2⟩ ⟨3⟩,
          EcOpRequest.Decompress ⟨4⟩, EcOpRequest.IsValid ⟨5⟩],
         [some ⟨10⟩, some ⟨11⟩, some ⟨12⟩, none]⟩ = some b2 ∧
      b2.constraints = [] ++
        expectedEcConstraints 7
          (([EcOpRequest.Add ⟨0⟩ ⟨1⟩, EcOpRequest.ScalarMul ⟨2⟩ ⟨3⟩,
             EcOpRequest.Decompress ⟨4⟩, EcOpRequest.IsValid ⟨5⟩] : List EcOpRequest).zip
            ([some ⟨10⟩, some ⟨11⟩, some ⟨12⟩, none] :
              List (Option AffinePointVariable))) ∧
      b2.fresh = 7 + ([EcOpRequest.Add ⟨0⟩ ⟨1⟩, EcOpRequest.ScalarMul ⟨2⟩ ⟨3⟩,
          EcOpRequest.Decompress ⟨4⟩, EcOpRequest.IsValid ⟨5⟩] : List EcOpRequest).countP
          (fun r => isResultRequest r.req_type) ∧
      b2.constraints.length = ([] : List (AffinePointVariable × AffinePointVariable)).length +
        ([EcOpRequest.Add ⟨0⟩ ⟨1⟩, EcOpRequest.ScalarMul ⟨2⟩ ⟨3⟩,
          EcOpRequest.Decompress ⟨4⟩, EcOpRequest.IsValid ⟨5⟩] : List EcOpRequest).countP
          (fun r => isResultRequest r.req_type) :=
  ⟨by decide, by decide,
    curta_constrain_ec_op_binds_each_result_request ⟨[], [], 7⟩
      ⟨[EcOpRequest.Add ⟨0⟩ ⟨1⟩, EcOpRequest.ScalarMul ⟨2⟩ ⟨3⟩,
        EcOpRequest.Decompress ⟨4⟩, EcOpRequest.IsValid ⟨5⟩],
       [some ⟨10⟩, some ⟨11⟩, some ⟨12⟩, none]⟩ (by decide) (by decide)⟩

/-- **C2**: a None response aligned with an Add/ScalarMul/Decompress request
makes the drain fail during circuit construction (the `expect` panic, modelled
by `none`); when every non-IsValid pair has a present response the drain
succeeds, so a None response for IsValid causes no failure. -/
theorem curta_constrain_ec_op_missing_response_fails
    (b : CircuitBuilder) (accelerator : EcOpAccelerator) :
    (∀ p ∈ accelerator.ec_op_requests.zip accelerator.ec_op_responses,
        p.1.req_type ≠ EcOpRequestType.IsValid → p.2 = none →
        curta_constrain_ec_op b accelerator = none) ∧
    ((∀ p ∈ accelerator.ec_op_requests.zip accelerator.ec_op_responses,
        p.1.req_type ≠ EcOpRequestType.IsValid → (p.2).isSome) →
      (curta_constrain_ec_op b accelerator).isSome) := by
  constructor
  · intro p hp hne hnone
    exact processEcOpPairs_missing _ b p hp ((isResultRequest_iff _).mpr hne) hnone
  · intro h
    obtain ⟨b2, hrun, -, -, -⟩ := processEcOpPairs_success _ b h
    simp [curta_constrain_ec_op, hrun]

/-- Witness for C2: a lone Add request with a None response fails; a lone
IsValid request with a None response succeeds. -/
theorem curta_constrain_ec_op_missing_response_fails_witness :
    curta_constrain_ec_op ⟨[], [], 0⟩ ⟨[EcOpRequest.Add ⟨0⟩ ⟨1⟩], [none]⟩ = none ∧
    (curta_constrain_ec_op ⟨[], [], 0⟩ ⟨[EcOpRequest.IsValid ⟨0⟩], [none]⟩).isSome :=
  ⟨(curta_constrain_ec_op_missing_response_fails ⟨[], [], 0⟩
      ⟨[EcOpRequest.Add ⟨0⟩ ⟨1⟩], [none]⟩).1
      (EcOpRequest.Add ⟨0⟩ ⟨1⟩, none) (by decide) (by decide) rfl,
   (curta_constrain_ec_op_missing_response_fails ⟨[], [], 0⟩
      ⟨[EcOpRequest.IsValid ⟨0⟩], [none]⟩).2 (by decide)⟩

/-- **C3** (implicit): when there are strictly more requests than responses,
the drain behaves exactly as if the excess requests were absent — `zip`
truncates — and on success the number of recorded hint invocations equals the
number of responses, so no hint is invoked and no constraint emitted for the
excess requests and no error is raised for them. -/
theorem curta_constrain_ec_op_skips_excess_requests
    (b : CircuitBuilder) (accelerator : EcOpAccelerator)
    (hlen : accelerator.ec_op_responses.length < accelerator.ec_op_requests.length) :
    curta_constrain_ec_op b accelerator =
      curta_constrain_ec_op b
        ⟨accelerator.ec_op_requests.take accelerator.ec_op_responses.length,
         accelerator.ec_op_responses⟩ ∧
    ∀ b2, curta_constrain_ec_op b accelerator = some b2 →
      b2.hints.length = b.hints.length + accelerator.ec_op_responses.length := by
  constructor
  · simp only [curta_constrain_ec_op]
    rw [← zip_eq_zip_take]
  · intro b2 h
    rw [curta_constrain_ec_op] at h
    have hhints := processEcOpPairs_some_hints _ b b2 h
    rw [hhints]
    simp only [List.length_append, List.length_map, List.length_zip]
    omega

/-- Witness for C3: two requests, one response; the second request is skipped
silently and only one hint is recorded. -/
theorem curta_constrain_ec_op_skips_excess_requests_witness :
    curta_constrain_ec_op ⟨[], [], 0⟩
        ⟨[EcOpRequest.IsValid ⟨0⟩, EcOpRequest.Add ⟨1⟩ ⟨2⟩], [none]⟩ =
      curta_constrain_ec_op ⟨[], [], 0⟩
        ⟨([EcOpRequest.IsValid ⟨0⟩, EcOpRequest.Add ⟨1⟩ ⟨2⟩] : List EcOpRequest).take
            ([(none : Option AffinePointVariable)]).length,
         [none]⟩ :=
  (curta_constrain_ec_op_skips_excess_requests ⟨[], [], 0⟩
    ⟨[EcOpRequest.IsValid ⟨0⟩, EcOpRequest.Add ⟨1⟩ ⟨2⟩], [none]⟩ (by decide)).1

/-- **C4**: a successful drain records, in insertion order, one hint invocation
per zipped pair whose `EcOpResultHint` is built from the request's own
`req_type` and whose input stream holds the operands in the type-specific
order: Add writes a then b, ScalarMul writes scalar then point, Decompress the
compressed point, IsValid the point. -/
theorem curta_constrain_ec_op_hint_inputs (b : CircuitBuilder)
    (accelerator : EcOpAccelerator) (b2 : CircuitBuilder)
    (h : curta_constrain_ec_op b accelerator = some b2) :
    b2.hints = b.hints ++
      (accelerator.ec_op_requests.zip accelerator.ec_op_responses).map
        (fun p => ⟨EcOpResultHint.new p.1.req_type, ecOpOperandItems p.1⟩) ∧
    (∀ a c, ecOpOperandItems (.Add a c) = [.point a, .point c]) ∧
    (∀ s pt, ecOpOperandItems (.ScalarMul s pt) = [.scalar s, .point pt]) ∧
    (∀ c, ecOpOperandItems (.Decompress c) = [.compressed c]) ∧
    (∀ pt, ecOpOperandItems (.IsValid pt) = [.point pt]) := by
  rw [curta_constrain_ec_op] at h
  exact ⟨processEcOpPairs_some_hints _ b b2 h,
    fun _ _ => rfl, fun _ _ => rfl, fun _ => rfl, fun _ => rfl⟩

/-- Witness for C4 at a concrete two-request accelerator. -/
theorem curta_constrain_ec_op_hint_inputs_witness :
    ∃ b2, curta_constrain_ec_op ⟨[], [], 0⟩
        ⟨[EcOpRequest.ScalarMul ⟨0⟩ ⟨1⟩, EcOpRequest.IsValid ⟨2⟩],
         [some ⟨9⟩, none]⟩ = some b2 ∧
      b2.hints =
        ([] : List HintCall) ++
          (([EcOpRequest.ScalarMul ⟨0⟩ ⟨1⟩, EcOpRequest.IsValid ⟨2⟩] :
              List EcOpRequest).zip
            ([some ⟨9⟩, none] : List (Option AffinePointVariable))).map
            (fun p => ⟨EcOpResultHint.new p.1.req_type, ecOpOperandItems p.1⟩) := by
  refine ⟨⟨[⟨⟨EcOpRequestType.ScalarMul⟩, [.scalar ⟨0⟩, .point ⟨1⟩]⟩,
            ⟨⟨EcOpRequestType.IsValid⟩, [.point ⟨2⟩]⟩],
           [(⟨0⟩, ⟨9⟩)], 1⟩, by decide, ?_⟩
  exact (curta_constrain_ec_op_hint_inputs ⟨[], [], 0⟩
    ⟨[EcOpRequest.ScalarMul ⟨0⟩ ⟨1⟩, EcOpRequest.IsValid ⟨2⟩], [some ⟨9⟩, none]⟩
    _ (by decide)).1

/-- **C9**: `req_type` maps each `EcOpRequest` variant to the matching
`EcOpRequestType` tag; being a pure Lean function of the value, repeated
applications to the same value are definitionally the same tag. -/
theorem EcOpRequest.req_type_matches_variant :
    (∀ a c, (EcOpRequest.Add a c).req_type = EcOpRequestType.Add) ∧
    (∀ s pt, (EcOpRequest.ScalarMul s pt).req_type = EcOpRequestType.ScalarMul) ∧
    (∀ c, (EcOpRequest.Decompress c).req_type = EcOpRequestType.Decompress) ∧
    (∀ pt, (EcOpRequest.IsValid pt).req_type = EcOpRequestType.IsValid) ∧
    (∀ r : EcOpRequest, r.req_type = r.req_type) :=
  ⟨fun _ _ => rfl, fun _ _ => rfl, fun _ => rfl, fun _ => rfl, fun _ => rfl⟩

/-! ## Claim theorems for the storage generators -/

/-- **C8**: `EthStorageKeyGenerator::run_once` is a pure, deterministic
function of the two dependency values and performs no I/O (the model has no
I/O channel): witnesses agreeing on the values of `mapping_location` and
`map_key` produce identical writes. -/
theorem EthStorageKeyGenerator.run_once_deterministic
    (g : EthStorageKeyGenerator) (w1 w2 : Target → Nat)
    (hml : g.mapping_location.get w1 = g.mapping_location.get w2)
    (hmk : g.map_key.get w1 = g.map_key.get w2) :
    g.run_once w1 = g.run_once w2 := by
  simp only [EthStorageKeyGenerator.run_once, hml, hmk]

/-- Witness for C8: two witnesses agreeing on the dependency wires but
disagreeing elsewhere. -/
theorem EthStorageKeyGenerator.run_once_deterministic_witness :
    ((⟨[0]⟩ : U256Variable).get (fun t => t) =
      (⟨[0]⟩ : U256Variable).get (fun t => if t < 4 then t else 99)) ∧
    ((⟨[1]⟩ : Bytes32Variable).get (fun t => t) =
      (⟨[1]⟩ : Bytes32Variable).get (fun t => if t < 4 then t else 99)) ∧
    EthStorageKeyGenerator.run_once ⟨⟨[0]⟩, ⟨[1]⟩, ⟨[2, 3]⟩⟩ (fun t => t) =
      EthStorageKeyGenerator.run_once ⟨⟨[0]⟩, ⟨[1]⟩, ⟨[2, 3]⟩⟩
        (fun t => if t < 4 then t else 99) :=
  ⟨by decide, by decide,
    EthStorageKeyGenerator.run_once_deterministic ⟨⟨[0]⟩, ⟨[1]⟩, ⟨[2, 3]⟩⟩
      (fun t => t) (fun t => if t < 4 then t else 99) (by decide) (by decide)⟩

/-- **C10** (implicit): `run_once` converts the `mapping_location` value with
`as_u128`, so it fails fatally (the panic, modelled by `none`) before writing
any output whenever the value needs more than 128 bits, and succeeds whenever
it fits. -/
theorem EthStorageKeyGenerator.run_once_u128_precondition
    (g : EthStorageKeyGenerator) (witness : Target → Nat) :
    (2 ^ 128 ≤ g.mapping_location.get witness → g.run_once witness = none) ∧
    (g.mapping_location.get witness < 2 ^ 128 → (g.run_once witness).isSome) := by
  constructor
  · intro h
    have hno : ¬ g.mapping_location.get witness < 2 ^ 128 := Nat.not_lt.mpr h
    simp only [EthStorageKeyGenerator.run_once, as_u128, if_neg hno]
  · intro h
    simp only [EthStorageKeyGenerator.run_once, as_u128, if_pos h, Option.isSome_some]

/-- Witness for C10: five 32-bit limbs reach 2^128, a single limb stays
under it. -/
theorem EthStorageKeyGenerator.run_once_u128_precondition_witness :
    (2 ^ 128 ≤ (⟨[0, 1, 2, 3, 4]⟩ : U256Variable).get (fun _ => 1) ∧
      EthStorageKeyGenerator.run_once ⟨⟨[0, 1, 2, 3, 4]⟩, ⟨[9]⟩, ⟨[10]⟩⟩
        (fun _ => 1) = none) ∧
    ((⟨[0]⟩ : U256Variable).get (fun _ => 1) < 2 ^ 128 ∧
      (EthStorageKeyGenerator.run_once ⟨⟨[0]⟩, ⟨[9]⟩, ⟨[10]⟩⟩ (fun _ => 1)).isSome) :=
  ⟨⟨by decide,
    (EthStorageKeyGenerator.run_once_u128_precondition
      ⟨⟨[0, 1, 2, 3, 4]⟩, ⟨[9]⟩, ⟨[10]⟩⟩ (fun _ => 1)).1 (by decide)⟩,
   ⟨by decide,
    (EthStorageKeyGenerator.run_once_u128_precondition
      ⟨⟨[0]⟩, ⟨[9]⟩, ⟨[10]⟩⟩ (fun _ => 1)).2 (by decide)⟩⟩

/-- **C7**: every block-hash wire is declared in `dependencies()`, yet the
output of `run_once` is independent of the block-hash witness value: two
witnesses agreeing on the transaction hash but differing on the block hash
(with the same external receipt provider) produce identical writes. -/
theorem EthLogGenerator.block_hash_dependency_unused
    (g : EthLogGenerator) (w1 w2 : Target → Nat)
    (provider : Nat → List Nat → Option TransactionReceipt)
    (htx : g.transaction_hash.get w1 = g.transaction_hash.get w2)
    (_hbh : g.block_hash.get w1 ≠ g.block_hash.get w2) :
    (∀ t ∈ g.block_hash.targets, t ∈ g.dependencies) ∧
    g.run_once w1 provider = g.run_once w2 provider := by
  constructor
  · intro t ht
    exact List.mem_append_right _ ht
  · simp only [EthLogGenerator.run_once, htx]

/-- Witness for C7: witnesses equal on the transaction-hash wire, different on
the block-hash wire. -/
theorem EthLogGenerator.block_hash_dependency_unused_witness :
    ((⟨[0]⟩ : Bytes32Variable).get (fun t => t) =
      (⟨[0]⟩ : Bytes32Variable).get (fun t => if t = 1 then 42 else t)) ∧
    ((⟨[1]⟩ : Bytes32Variable).get (fun t => t) ≠
      (⟨[1]⟩ : Bytes32Variable).get (fun t => if t = 1 then 42 else t)) ∧
    (∀ t ∈ ([1] : List Target),
      t ∈ EthLogGenerator.dependencies ⟨⟨[0]⟩, ⟨[1]⟩, 0, ⟨[5, 6, 7, 8, 9]⟩, 1⟩) ∧
    EthLogGenerator.run_once ⟨⟨[0]⟩, ⟨[1]⟩, 0, ⟨[5, 6, 7, 8, 9]⟩, 1⟩ (fun t => t)
        (fun _ _ => none) =
      EthLogGenerator.run_once ⟨⟨[0]⟩, ⟨[1]⟩, 0, ⟨[5, 6, 7, 8, 9]⟩, 1⟩
        (fun t => if t = 1 then 42 else t) (fun _ _ => none) :=
  ⟨by decide, by decide,
    (EthLogGenerator.block_hash_dependency_unused
      ⟨⟨[0]⟩, ⟨[1]⟩, 0, ⟨[5, 6, 7, 8, 9]⟩, 1⟩ (fun t => t)
      (fun t => if t = 1 then 42 else t) (fun _ _ => none)
      (by decide) (by decide)).1,
    (EthLogGenerator.block_hash_dependency_unused
      ⟨⟨[0]⟩, ⟨[1]⟩, 0, ⟨[5, 6, 7, 8, 9]⟩, 1⟩ (fun t => t)
      (fun t => if t = 1 then 42 else t) (fun _ _ => none)
      (by decide) (by decide)).2⟩

/-- **C6**: with a fetched receipt, if the selected log exists and has at least
three topics, `run_once` writes exactly {address, first three topics,
digest-of-data} to the output variable; a log index out of range, or a selected
log with fewer than three topics, fails fatally (the panic, modelled by `none`)
with no output written. -/
theorem EthLogGenerator.run_once_log_selection
    (g : EthLogGenerator) (witness : Target → Nat)
    (provider : Nat → List Nat → Option TransactionReceipt)
    (receipt : TransactionReceipt)
    (hp : provider g.chain_id (g.transaction_hash.get witness) = some receipt) :
    (∀ log, receipt.logs[g.log_index]? = some log → 3 ≤ log.topics.length →
      g.run_once witness provider = some (g.value.set
        { address := log.address,
          topics := (log.topics.getD 0 0, log.topics.getD 1 0, log.topics.getD 2 0),
          data_hash := sha2_digest log.data })) ∧
    (receipt.logs.length ≤ g.log_index → g.run_once witness provider = none) ∧
    (∀ log, receipt.logs[g.log_index]? = some log → log.topics.length < 3 →
      g.run_once witness provider = none) := by
  refine ⟨?_, ?_, ?_⟩
  · intro log hlog htopics
    rcases log with ⟨addr, topics, data⟩
    rcases topics with _ | ⟨t0, _ | ⟨t1, _ | ⟨t2, restTopics⟩⟩⟩
    · simp at htopics
    · simp at htopics
    · simp at htopics
    · simp [EthLogGenerator.run_once, hp, hlog, List.getD]
  · intro hlen
    have hnone : receipt.logs[g.log_index]? = none :=
      List.getElem?_eq_none hlen
    simp [EthLogGenerator.run_once, hp, hnone]
  · intro log hlog htopics
    rcases log with ⟨addr, topics, data⟩
    rcases topics with _ | ⟨t0, _ | ⟨t1, _ | ⟨t2, restTopics⟩⟩⟩
    · simp [EthLogGenerator.run_once, hp, hlog]
    · simp [EthLogGenerator.run_once, hp, hlog]
    · simp [EthLogGenerator.run_once, hp, hlog]
    · exfalso
      simp at htopics
      omega

/-- Witness for C6: a receipt whose single log has four topics yields the
expected output at index 0; the same receipt fails at the out-of-range
index 5. -/
theorem EthLogGenerator.run_once_log_selection_witness :
    EthLogGenerator.run_once ⟨⟨[0]⟩, ⟨[1]⟩, 0, ⟨[5, 6, 7, 8, 9]⟩, 1⟩ (fun t => t)
        (fun _ _ => some ⟨[⟨7, [1, 2, 3, 9], [4, 5]⟩]⟩) =
      some ((⟨[5, 6, 7, 8, 9]⟩ : EthLogVariable).set
        { address := 7, topics := (1, 2, 3), data_hash := sha2_digest [4, 5] }) ∧
    EthLogGenerator.run_once ⟨⟨[0]⟩, ⟨[1]⟩, 5, ⟨[5, 6, 7, 8, 9]⟩, 1⟩ (fun t => t)
        (fun _ _ => some ⟨[⟨7, [1, 2, 3, 9], [4, 5]⟩]⟩) = none :=
  ⟨(EthLogGenerator.run_once_log_selection ⟨⟨[0]⟩, ⟨[1]⟩, 0, ⟨[5, 6, 7, 8, 9]⟩, 1⟩
      (fun t => t) (fun _ _ => some ⟨[⟨7, [1, 2, 3, 9], [4, 5]⟩]⟩)
      ⟨[⟨7, [1, 2, 3, 9], [4, 5]⟩]⟩ rfl).1 ⟨7, [1, 2, 3, 9], [4, 5]⟩ rfl (by decide),
   (EthLogGenerator.run_once_log_selection ⟨⟨[0]⟩, ⟨[1]⟩, 5, ⟨[5, 6, 7, 8, 9]⟩, 1⟩
      (fun t => t) (fun _ _ => some ⟨[⟨7, [1, 2, 3, 9], [4, 5]⟩]⟩)
      ⟨[⟨7, [1, 2, 3, 9], [4, 5]⟩]⟩ rfl).2.1 (by decide)⟩

/-! ## Serialization round trip -/

theorem fromBe_beBytes8 (x : Nat) (h : x < 2 ^ 64) :
    fromBeBytes8 (beBytes8 x) = x := by
  simp only [beBytes8, fromBeBytes8, List.foldl]
  norm_num
  omega

theorem read_exact_append (l rest : List Nat) :
    read_exact l.length (l ++ rest) = some (l, rest) := by
  unfold read_exact
  rw [if_pos (by simp)]
  rw [List.take_left, List.drop_left]

theorem read_exact_beBytes8 (x : Nat) (rest : List Nat) :
    read_exact 8 (beBytes8 x ++ rest) = some (beBytes8 x, rest) :=
  read_exact_append (beBytes8 x) rest

theorem readTargets_append (ts : List Target) :
    ∀ rest : List Nat, (∀ t ∈ ts, t < 2 ^ 64) →
    readTargets ts.length (ts.flatMap beBytes8 ++ rest) = some (ts, rest) := by
  induction ts with
  | nil =>
    intro rest _
    simp [readTargets]
  | cons t ts ih =>
    intro rest h
    have h2 := ih rest (fun u hu => h u (List.mem_cons_of_mem _ hu))
    simp only [List.flatMap_cons, List.append_assoc, List.length_cons, readTargets,
      read_exact_beBytes8, h2, fromBe_beBytes8 t (h t (List.mem_cons_self _ _))]

theorem read_write_target_vec (ts : List Target) (rest : List Nat)
    (hv : validTargetList ts) :
    read_target_vec (write_target_vec ts ++ rest) = some (ts, rest) := by
  obtain ⟨hlen, helts⟩ := hv
  have h2 := readTargets_append ts rest helts
  simp only [write_target_vec, read_target_vec, List.append_assoc,
    read_exact_beBytes8, fromBe_beBytes8 ts.length hlen, h2]

/-- **C5**: for both generator types, deserializing the bytes produced by
`serialize` succeeds, consumes exactly the serialized bytes, and reconstructs a
generator with identical fields (targets, chain id, log index); consequently
the round-tripped generator run on an identical witness (and provider response)
produces identical output writes. -/
theorem generator_serialize_roundtrip
    (g : EthLogGenerator) (k : EthStorageKeyGenerator) (rest1 rest2 : List Nat)
    (hc : g.chain_id < 2 ^ 64) (hl : g.log_index < 2 ^ 64)
    (ht1 : validTargetList g.transaction_hash.targets)
    (ht2 : validTargetList g.block_hash.targets)
    (ht3 : validTargetList g.value.targets)
    (hk1 : validTargetList k.mapping_location.targets)
    (hk2 : validTargetList k.map_key.targets)
    (hk3 : validTargetList k.value.targets) :
    EthLogGenerator.deserialize (EthLogGenerator.serialize g ++ rest1) =
      some (g, rest1) ∧
    EthStorageKeyGenerator.deserialize (EthStorageKeyGenerator.serialize k ++ rest2) =
      some (k, rest2) ∧
    (∀ g2 r2, EthLogGenerator.deserialize (EthLogGenerator.serialize g ++ rest1) =
        some (g2, r2) →
      ∀ w provider, EthLogGenerator.run_once g2 w provider =
        EthLogGenerator.run_once g w provider) ∧
    (∀ k2 r2, EthStorageKeyGenerator.deserialize
        (EthStorageKeyGenerator.serialize k ++ rest2) = some (k2, r2) →
      ∀ w, EthStorageKeyGenerator.run_once k2 w =
        EthStorageKeyGenerator.run_once k w) := by
  have hlog : EthLogGenerator.deserialize (EthLogGenerator.serialize g ++ rest1) =
      some (g, rest1) := by
    simp only [EthLogGenerator.serialize, EthLogGenerator.deserialize,
      List.append_assoc, read_exact_beBytes8,
      fromBe_beBytes8 g.chain_id hc, fromBe_beBytes8 g.log_index hl,
      read_write_target_vec g.transaction_hash.targets _ ht1,
      read_write_target_vec g.block_hash.targets _ ht2,
      read_write_target_vec g.value.targets _ ht3,
      Bytes32Variable.from_targets, EthLogVariable.from_targets]
  have hkey : EthStorageKeyGenerator.deserialize
      (EthStorageKeyGenerator.serialize k ++ rest2) = some (k, rest2) := by
    simp only [EthStorageKeyGenerator.serialize, EthStorageKeyGenerator.deserialize,
      List.append_assoc,
      read_write_target_vec k.mapping_location.targets _ hk1,
      read_write_target_vec k.map_key.targets _ hk2,
      read_write_target_vec k.value.targets _ hk3,
      U256Variable.from_targets, Bytes32Variable.from_targets]
  refine ⟨hlog, hkey, ?_, ?_⟩
  · intro g2 r2 h2 w provider
    rw [hlog] at h2
    obtain ⟨hg, -⟩ := Prod.mk.injEq .. ▸ Option.some.inj h2
    rw [hg]
  · intro k2 r2 h2 w
    rw [hkey] at h2
    obtain ⟨hk, -⟩ := Prod.mk.injEq .. ▸ Option.some.inj h2
    rw [hk]

/-- Witness for C5 at concrete small generators with a nonempty trailing
buffer. -/
theorem generator_serialize_roundtrip_witness :
    (5 : Nat) < 2 ^ 64 ∧ (3 : Nat) < 2 ^ 64 ∧
    validTargetList [1] ∧ validTargetList [2] ∧ validTargetList [4] ∧
    validTargetList [1, 2] ∧ validTargetList [3] ∧
    EthLogGenerator.deserialize
        (EthLogGenerator.serialize ⟨⟨[1]⟩, ⟨[2]⟩, 3, ⟨[4]⟩, 5⟩ ++ [255]) =
      some (⟨⟨[1]⟩, ⟨[2]⟩, 3, ⟨[4]⟩, 5⟩, [255]) ∧
    EthStorageKeyGenerator.deserialize
        (EthStorageKeyGenerator.serialize ⟨⟨[1, 2]⟩, ⟨[3]⟩, ⟨[4]⟩⟩ ++ []) =
      some (⟨⟨[1, 2]⟩, ⟨[3]⟩, ⟨[4]⟩⟩, []) :=
  ⟨by decide, by decide, by decide, by decide, by decide, by decide, by decide,
   (generator_serialize_roundtrip ⟨⟨[1]⟩, ⟨[2]⟩, 3, ⟨[4]⟩, 5⟩
     ⟨⟨[1, 2]⟩, ⟨[3]⟩, ⟨[4]⟩⟩ [255] [] (by decide) (by decide) (by decide)
     (by decide) (by decide) (by decide) (by decide) (by decide)).1,
   (generator_serialize_roundtrip ⟨⟨[1]⟩, ⟨[2]⟩, 3, ⟨[4]⟩, 5⟩
     ⟨⟨[1, 2]⟩, ⟨[3]⟩, ⟨[4]⟩⟩ [255] [] (by decide) (by decide) (by decide)
     (by decide) (by decide) (by decide) (by decide) (by decide)).2.1⟩
